import Mathlib

/-!
Shallow embedding of the inspection-checklist document model and the
persistence gateway of the repository (src/components/CameraView.tsx,
src/services/supabaseService.ts, and the shared type declarations), with
theorems settling the specification claims about them.

Conventions of the embedding:
* TypeScript optional fields (`field?: T`) become `Option T`, except
  `isHidden?: boolean`, which becomes `Bool`: every read of `isHidden` in
  the source is a boolean-truthiness test (`!i.isHidden`,
  `i.isHidden: false`), so `undefined` and `false` are indistinguishable
  to the program and are both modelled as `false`.
* The React `setInspection(prev => ...)` updaters are pure functions from
  the previous document to the next one; they are modelled as functions
  `InspectionProfile → InspectionProfile`.
* Asynchronous service calls are modelled by passing their results
  (remote rows, error codes, generated items, analysis text) as explicit
  arguments.
-/

namespace Inspection

/-- Item status, from `type ItemStatus` in the shared type declarations. -/
inductive ItemStatus where
  | untouched
  | pass
  | info
  | attention
  | moderate
  | dangerous
deriving DecidableEq, Repr

/-- Derived section status, from `InspectionSection.status`. -/
inductive SectionStatus where
  | pending
  | inProgress
  | completed
deriving DecidableEq, Repr

/-- Embeds TypeScript `interface InspectionChecklistItem` from the shared type declarations. -/
structure InspectionChecklistItem where
  id : String
  label : String
  status : ItemStatus
  notes : String
  photos : List String
  options : Option (List String)
  selectedOption : Option String
  isHidden : Bool
deriving DecidableEq, Repr

/-- Embeds TypeScript `interface InspectionSection` from the shared type declarations. -/
structure InspectionSection where
  id : String
  title : String
  iconName : String
  description : String
  items : List InspectionChecklistItem
  photoUrl : Option String
  status : SectionStatus
deriving DecidableEq, Repr

/-- Embeds TypeScript `interface InspectionProfile` from the shared type declarations. -/
structure InspectionProfile where
  id : String
  savedReportId : Option String
  shortId : Option String
  userId : Option String
  address : String
  googleMapsUrl : Option String
  propertyType : String
  floors : Nat
  baths : Nat
  bedrooms : Nat
  sqft : Option Nat
  yearBuilt : Option String
  occupancy : Option String
  pets : Option String
  weather : Option String
  temperatureOutside : Option String
  temperatureInside : Option String
  gasType : Option String
  sewerType : Option String
  waterType : Option String
  electricPanel : Option String
  generatorType : Option String
  inspectorName : String
  createdAt : String
  sections : List InspectionSection
deriving DecidableEq, Repr

/-- The section-status rollup computed inside `updateItemStatus`
(CameraView.tsx lines 942-949): `completed = total - untouched`;
`completed === total → 'completed'`, else `completed > 0 → 'in-progress'`,
else `'pending'`. -/
def sectionStatusOf (items : List InspectionChecklistItem) : SectionStatus :=
  let total := items.length
  let untouched := (items.filter (fun i => i.status = ItemStatus.untouched)).length
  let completed := total - untouched
  if completed = total then SectionStatus.completed
  else if completed > 0 then SectionStatus.inProgress
  else SectionStatus.pending

/-- Embeds `updateItemStatus` (CameraView.tsx lines 929-955): sets the status of
the matching item in the matching section and recomputes that section's
derived status. -/
def updateItemStatus (sectionId itemId : String) (status : ItemStatus)
    (p : InspectionProfile) : InspectionProfile :=
  { p with sections := p.sections.map fun sec =>
      if sec.id ≠ sectionId then sec
      else
        let updatedItems := sec.items.map fun item =>
          if item.id = itemId then { item with status := status } else item
        { sec with items := updatedItems, status := sectionStatusOf updatedItems } }

/-- Embeds `updateItemOption` (CameraView.tsx lines 957-971). -/
def updateItemOption (sectionId itemId : String) (selectedOption : String)
    (p : InspectionProfile) : InspectionProfile :=
  { p with sections := p.sections.map fun sec =>
      if sec.id ≠ sectionId then sec
      else { sec with items := sec.items.map fun item =>
        if item.id = itemId then { item with selectedOption := some selectedOption } else item } }

/-- Embeds `updateItemNote` (CameraView.tsx lines 973-987): full replacement of
the `notes` field. -/
def updateItemNote (sectionId itemId : String) (notes : String)
    (p : InspectionProfile) : InspectionProfile :=
  { p with sections := p.sections.map fun sec =>
      if sec.id ≠ sectionId then sec
      else { sec with items := sec.items.map fun item =>
        if item.id = itemId then { item with notes := notes } else item } }

/-- Embeds `toggleItemVisibility` (CameraView.tsx lines 989-1003). -/
def toggleItemVisibility (sectionId itemId : String) (isHidden : Bool)
    (p : InspectionProfile) : InspectionProfile :=
  { p with sections := p.sections.map fun sec =>
      if sec.id ≠ sectionId then sec
      else { sec with items := sec.items.map fun item =>
        if item.id = itemId then { item with isHidden := isHidden } else item } }

/-- The note text written by `processImageAnalysis` (CameraView.tsx line
804): `i.notes ? `${i.notes}\nAI Note: ${description}` : description`.
JavaScript string truthiness makes the empty string take the bare branch. -/
def aiNoteText (oldNotes description : String) : String :=
  if oldNotes = "" then description else oldNotes ++ "\nAI Note: " ++ description

/-- The `setInspection` updater inside `processImageAnalysis`
(CameraView.tsx lines 795-809), applied once the image analysis has
returned `description`. `processImageAnalysis` only dispatches it when the
addressed section and item were found (lines 786-789). -/
def processImageAnalysisUpdate (sectionId itemId description : String)
    (p : InspectionProfile) : InspectionProfile :=
  { p with sections := p.sections.map fun sec =>
      if sec.id ≠ sectionId then sec
      else { sec with items := sec.items.map fun i =>
        if i.id = itemId then { i with notes := aiNoteText i.notes description } else i } }

/-- Embeds `processImageAnalysis` with the guard of lines 786-789: the update is
only dispatched when `sections.find(s => s.id === sectionId)` and a
subsequent `items.find(i => i.id === itemId)` both succeed. -/
def processImageAnalysis (sectionId itemId description : String)
    (p : InspectionProfile) : InspectionProfile :=
  match p.sections.find? (fun s => s.id = sectionId) with
  | none => p
  | some sec =>
    match sec.items.find? (fun i => i.id = itemId) with
    | none => p
    | some _ => processImageAnalysisUpdate sectionId itemId description p

/-- The camera target held in component state: a section and optionally an
item within it. -/
structure CameraTarget where
  sectionId : String
  itemId : Option String
deriving DecidableEq, Repr

/-- Embeds `handleCapturePhoto` (CameraView.tsx lines 1005-1040), document part:
with an item target the image is appended to that item's `photos`; with a
section-only target the section's `photoUrl` is replaced. -/
def handleCapturePhoto (target : CameraTarget) (imageData : String)
    (p : InspectionProfile) : InspectionProfile :=
  { p with sections := p.sections.map fun sec =>
      if sec.id ≠ target.sectionId then sec
      else
        match target.itemId with
        | some itemId =>
          { sec with items := sec.items.map fun item =>
              if item.id = itemId then { item with photos := item.photos ++ [imageData] }
              else item }
        | none => { sec with photoUrl := some imageData } }

/-- Embeds `deletePhoto` (CameraView.tsx lines 1042-1061):
`photos.filter((_, idx) => idx !== photoIndex)`. -/
def deletePhoto (sectionId itemId : String) (photoIndex : Nat)
    (p : InspectionProfile) : InspectionProfile :=
  { p with sections := p.sections.map fun sec =>
      if sec.id ≠ sectionId then sec
      else { sec with items := sec.items.map fun item =>
        if item.id ≠ itemId then item
        else { item with photos :=
          ((item.photos.enum.filter (fun x => x.1 ≠ photoIndex)).map (fun x => x.2)) } } }

/-- Embeds `handleAddItem` (CameraView.tsx lines 838-863): returns early when the
active section is not found; appends the generated items only when the
generated list is non-empty. The generated items (`generateSectionItems`)
always carry `status: 'untouched'`, empty notes and photos. -/
def handleAddItem (activeSectionId : String)
    (newItems : List InspectionChecklistItem)
    (p : InspectionProfile) : InspectionProfile :=
  match p.sections.find? (fun s => s.id = activeSectionId) with
  | none => p
  | some _ =>
    if newItems.length > 0 then
      { p with sections := p.sections.map fun s =>
          if s.id ≠ activeSectionId then s
          else { s with items := s.items ++ newItems } }
    else p

/-- Embeds `handleAddSection` (CameraView.tsx lines 818-836): appends the section
produced by `generateSingleSection` (which always has `status: 'pending'`
and all-`untouched` items). -/
def handleAddSection (newSection : InspectionSection)
    (p : InspectionProfile) : InspectionProfile :=
  { p with sections := p.sections ++ [newSection] }

/-- The bulk "Show hidden items" updater (CameraView.tsx lines 2112-2121):
un-hides every item of the active section. -/
def showAllHiddenInSection (activeSectionId : String)
    (p : InspectionProfile) : InspectionProfile :=
  { p with sections := p.sections.map fun s =>
      if s.id ≠ activeSectionId then s
      else { s with items := s.items.map fun i => { i with isHidden := false } } }

/-- The visible items of a document: `sections.flatMap(s => s.items)
.filter(i => !i.isHidden)` (CameraView.tsx line 1070). -/
def visibleItems (p : InspectionProfile) : List InspectionChecklistItem :=
  (p.sections.flatMap (fun s => s.items)).filter (fun i => !i.isHidden)

/-- Bit length of a natural number (`n < 2^(bitLen n)`, and
`2^(bitLen n - 1) ≤ n` for `n > 0`), written with explicit fuel so that
it reduces by plain kernel computation. -/
def bitLenAux : Nat → Nat → Nat
  | 0, _ => 0
  | fuel + 1, n => if n = 0 then 0 else bitLenAux fuel (n / 2) + 1

/-- Bit length of a natural number. -/
def bitLen (n : ℕ) : ℕ := bitLenAux n n

/-- A non-negative IEEE-754 binary64 value `m · 2^e` (significand and
exponent). The progress computation only ever produces non-negative
normal-range values: the two item counts are JavaScript array lengths,
hence exact integers below `2^32`, so the quotient lies in
`[2^(-32), 1] ∪ {0}` and the product in `[100·2^(-32), 100] ∪ {0}` — far
from subnormal and overflow territory, which this model therefore leaves
out (its exponent is unbounded). -/
structure FP where
  m : ℕ
  e : ℤ
deriving DecidableEq, Repr

/-- Decides `a / b < 2^d` for naturals `a, b > 0` by cross-multiplication. -/
def ltPow2 (a b : ℕ) (d : ℤ) : Bool :=
  if 0 ≤ d then a < b * 2 ^ d.toNat else a * 2 ^ (-d).toNat < b

/-- IEEE-754 binary64 division of the exact natural inputs, `a / b`,
rounded to nearest with ties to even: the exponent `e` is fixed so that
`2^e ≤ a/b < 2^(e+1)` (bit lengths give `e` up to one, settled by a single
comparison), and the 53-bit significand is the half-to-even rounding of
`(a/b) · 2^(52-e)`, computed by integer division with remainder
comparison. A zero divisor cannot occur in the source (guarded by the
`totalItems === 0` early return). -/
def divFP (a b : ℕ) : FP :=
  if a = 0 ∨ b = 0 then ⟨0, 0⟩ else
  let d : ℤ := (bitLen a : ℤ) - (bitLen b : ℤ)
  let e : ℤ := if ltPow2 a b d then d - 1 else d
  let s : ℤ := 52 - e
  let N := if 0 ≤ s then a * 2 ^ s.toNat else a
  let D := if 0 ≤ s then b else b * 2 ^ (-s).toNat
  let m0 := N / D
  let r := N % D
  let m := m0 + (if D < 2 * r then 1 else if 2 * r < D then 0 else m0 % 2)
  ⟨m, e - 52⟩

/-- IEEE-754 binary64 product of the exactly representable small integer
`k` with the value `x` (the source multiplies by the exact constant
`100`): the exact product of significands is re-rounded to 53 significant
bits, half to even. -/
def mulNatFP (k : ℕ) (x : FP) : FP :=
  if k * x.m = 0 then ⟨0, 0⟩ else
  let M := k * x.m
  let L := bitLen M
  if L ≤ 53 then ⟨M, x.e⟩ else
  let s := L - 53
  let m0 := M / 2 ^ s
  let r := M % 2 ^ s
  let m := m0 + (if 2 ^ s < 2 * r then 1 else if 2 * r < 2 ^ s then 0 else m0 % 2)
  ⟨m, x.e + s⟩

/-- ECMAScript `Math.round` on a non-negative binary64 value: the closest
integer, half toward `+∞`, evaluated exactly on the value `m · 2^e`
(for a negative exponent, `⌊m/2^j + 1/2⌋ = (2m + 2^j) / 2^(j+1)` in
natural division). -/
def jsRoundFP (x : FP) : ℕ :=
  if 0 ≤ x.e then x.m * 2 ^ x.e.toNat
  else (2 * x.m + 2 ^ (-x.e).toNat) / 2 ^ ((-x.e).toNat + 1)

/-- Embeds `calculateProgress` (CameraView.tsx lines 1067-1076). The
source computes `Math.round((completedItems / totalItems) * 100)` in
IEEE-754 doubles: one binary64 division, one binary64 multiplication by
the exact constant 100, then `Math.round`; both counts are array lengths
and hence exact doubles. -/
def calculateProgress (p : InspectionProfile) : Nat :=
  let totalItems := (visibleItems p).length
  let completedItems :=
    ((visibleItems p).filter (fun i => i.status ≠ ItemStatus.untouched)).length
  if totalItems = 0 then 0
  else jsRoundFP (mulNatFP 100 (divFP completedItems totalItems))

/-! ### Persistence gateway (src/services/supabaseService.ts) -/

/-- JavaScript `a || b` on an optional string: `undefined` and the empty
string are falsy. Used by `inspection.savedReportId || generateUUID()`
and friends. -/
def jsOrStr (a : Option String) (b : String) : String :=
  match a with
  | none => b
  | some s => if s = "" then b else s

/-- Case-insensitive hex digit, the `[0-9a-f]` atom of the load regex
under its `/i` flag. -/
def isHexDigitCI (c : Char) : Bool :=
  (('0' ≤ c && c ≤ '9') || ('a' ≤ c && c ≤ 'f') || ('A' ≤ c && c ≤ 'F'))

/-- Consume exactly `n` hex digits from the front, returning the rest. -/
def hexRun : Nat → List Char → Option (List Char)
  | 0, rest => some rest
  | _ + 1, [] => none
  | n + 1, c :: rest => if isHexDigitCI c then hexRun n rest else none

/-- Consume one expected literal character. -/
def expectChar (c : Char) : List Char → Option (List Char)
  | [] => none
  | d :: rest => if d = c then some rest else none

/-- The anchored regex of `loadReportFromSupabase` (supabaseService.ts
line 190): `/^[0-9a-f]{8}-[0-9a-f]{4}-[0-9a-f]{4}-[0-9a-f]{4}-[0-9a-f]{12}$/i`,
as the sequential matcher consuming the five hex runs and the four
hyphens, anchored by requiring the remainder to be empty. -/
def isUuidFormat (s : String) : Bool :=
  ((((((((hexRun 8 s.data).bind (expectChar '-')).bind (hexRun 4)).bind
      (expectChar '-')).bind (hexRun 4)).bind (expectChar '-')).bind
      (hexRun 4)).bind (expectChar '-')).bind (hexRun 12) = some []

/-- Hex digit produced by `v.toString(16)` for `v < 16`. -/
def hexDigitOfNat (n : Nat) : Char :=
  if n < 10 then Char.ofNat ('0'.toNat + n) else Char.ofNat ('a'.toNat + n - 10)

/-- The template string of the `generateUUID` fallback path
(supabaseService.ts line 49): `'xxxxxxxx-xxxx-4xxx-yxxx-xxxxxxxxxxxx'`. -/
def uuidTemplate : List Char :=
  ['x','x','x','x','x','x','x','x','-','x','x','x','x','-','4','x','x','x','-',
   'y','x','x','x','-','x','x','x','x','x','x','x','x','x','x','x','x']

/-- The `.replace(/[xy]/g, c => ...)` callback chain of the fallback path:
each matched `'x'` or `'y'` consumes the next random draw
`r = (Math.random()*16)|0`; an `'x'` becomes `r.toString(16)` and a `'y'`
becomes `((r & 0x3) | 0x8).toString(16)`; other characters pass through. -/
def replaceTemplate (draws : Nat → Fin 16) : List Char → Nat → List Char
  | [], _ => []
  | c :: cs, k =>
    if c = 'x' then hexDigitOfNat (draws k).val :: replaceTemplate draws cs (k + 1)
    else if c = 'y' then
      hexDigitOfNat (((draws k).val &&& 0x3) ||| 0x8) :: replaceTemplate draws cs (k + 1)
    else c :: replaceTemplate draws cs k

/-- The `Math.random` fallback path of `generateUUID` (supabaseService.ts
lines 49-53), parameterised by the sequence of random draws. -/
def generateUUIDFallback (draws : Nat → Fin 16) : String :=
  String.mk (replaceTemplate draws uuidTemplate 0)

/-- Lower-case hex digit. -/
def isLowerHexDigit (c : Char) : Bool :=
  (('0' ≤ c && c ≤ '9') || ('a' ≤ c && c ≤ 'f'))

/-- The 62-character alphabet of `generateShortId` (supabaseService.ts
line 57). -/
def shortIdChars : List Char :=
  "abcdefghijklmnopqrstuvwxyzABCDEFGHIJKLMNOPQRSTUVWXYZ0123456789".data

theorem shortIdChars_length : shortIdChars.length = 62 := by decide

/-- Embeds `generateShortId` (supabaseService.ts lines 56-63): nine characters
drawn from the 62-character alphabet, parameterised by the nine random
draws `Math.floor(Math.random() * chars.length)`. -/
def generateShortId (draws : Fin 9 → Fin 62) : String :=
  String.mk ((List.finRange 9).map fun i =>
    shortIdChars.get ((draws i).cast shortIdChars_length.symm))

/-- Result of the remote upsert in `saveReportToSupabase`: either the
selected row data (`id`, `short_id`, possibly null) or a Postgrest error
with a code and a message. -/
inductive RemoteSaveResult where
  | ok (id : Option String) (shortId : Option String)
  | err (code : String) (msg : String)
deriving DecidableEq, Repr

/-- Outcome of a save: either the returned `{uuid, shortId}` pair or the
thrown error message, together with the warning surfaced via `alert`
(if any). -/
structure SaveOutcome where
  result : Except String (String × String)
  warning : Option String
deriving Repr

/-- Embeds `saveReportToSupabase` (supabaseService.ts lines 100-181), decision
structure. IO is abstracted: `freshUuid`/`freshShortId` stand for the
values `generateUUID()`/`generateShortId()` would produce, and `remote`
is `none` when no Supabase client is configured, otherwise the result of
the upsert. The unconditional localStorage backup (lines 120-128) writes
the payload keyed by `uuid` and never affects the outcome; it is modelled
separately by `localBackupEntry`. -/
def saveReportToSupabase (inspection : InspectionProfile)
    (freshUuid freshShortId : String)
    (remote : Option RemoteSaveResult) : SaveOutcome :=
  let uuid := jsOrStr inspection.savedReportId freshUuid
  let shortId := jsOrStr inspection.shortId freshShortId
  match remote with
  | none => { result := Except.ok (uuid, shortId), warning := none }
  | some (RemoteSaveResult.ok did dshort) =>
    { result := Except.ok (jsOrStr did uuid, jsOrStr dshort shortId), warning := none }
  | some (RemoteSaveResult.err code msg) =>
    if code = "42501" then
      { result := Except.ok (uuid, shortId)
        warning := some "Warning: Permission denied. If you are not logged in, you can only save new reports. Log in to update existing ones. (Report saved locally)" }
    else if code = "42P01" then
      { result := Except.ok (uuid, shortId)
        warning := some "Warning: Table 'inspections' does not exist. Please run SQL setup. Report saved locally." }
    else if code = "PGRST204" then
      { result := Except.ok (uuid, shortId)
        warning := some "Warning: Schema mismatch (missing column). Please run SQL setup. Report saved locally." }
    else
      { result := Except.error ("Supabase Error " ++ code ++ ": " ++ msg), warning := none }

/-- The locally-assigned key pair of a save: the same `uuid`/`shortId`
computed at the top of `saveReportToSupabase` and written to the local
backup map. -/
def localKeys (inspection : InspectionProfile) (freshUuid freshShortId : String) :
    String × String :=
  (jsOrStr inspection.savedReportId freshUuid, jsOrStr inspection.shortId freshShortId)

/-- A row of the remote `inspections` table, as selected by the load
query (`data, id, short_id, user_id`). `data` is the stored payload
column, which the code guards with `data && data.data`. -/
structure RemoteRow where
  id : String
  short_id : String
  user_id : Option String
  data : Option InspectionProfile
deriving DecidableEq, Repr

/-- One record of the localStorage map under key `chrp_inspections`: save
writes `{ id, data, created_at }`; load also tolerates a legacy
`report_data` field (`record.data || record.report_data`). -/
structure LocalRecord where
  id : String
  data : Option InspectionProfile
  report_data : Option InspectionProfile
  created_at : String
deriving DecidableEq, Repr

/-- The record the local backup step of `saveReportToSupabase` (lines
120-128) stores under key `uuid`. -/
def localBackupEntry (inspection : InspectionProfile)
    (freshUuid freshShortId : String) (now : String) : String × LocalRecord :=
  let uuid := jsOrStr inspection.savedReportId freshUuid
  let shortId := jsOrStr inspection.shortId freshShortId
  let userId := inspection.userId
  (uuid,
   { id := uuid
     data := some { inspection with
       savedReportId := some uuid, shortId := some shortId, userId := userId }
     report_data := none
     created_at := now })

/-- The remote column the load query filters on. -/
inductive RemoteColumn where
  | id
  | short_id
deriving DecidableEq, Repr

/-- Which column `loadReportFromSupabase` queries (supabaseService.ts
lines 197-201): `id` when the regex matched, `short_id` otherwise. -/
def loadQueryColumn (idOrShortId : String) : RemoteColumn :=
  if isUuidFormat idOrShortId then RemoteColumn.id else RemoteColumn.short_id

/-- The `.single()` remote query: exactly one matching row yields data,
anything else yields a Postgrest error (treated by the load code as a
miss). -/
def remoteSingle (table : List RemoteRow) (col : RemoteColumn) (key : String) :
    Option RemoteRow :=
  match table.filter (fun r =>
      match col with
      | RemoteColumn.id => r.id = key
      | RemoteColumn.short_id => r.short_id = key) with
  | [r] => some r
  | _ => none

/-- Embeds `loadReportFromSupabase` (supabaseService.ts lines 187-254). IO is
abstracted: `remote` is `none` when no Supabase client is configured and
otherwise holds the rows of the `inspections` table; `localRaw` is `none`
when `safeGetLocalStorage` returned null or the stored string failed to
parse (both make the routine return null), and otherwise holds the parsed
local map. The uuid-keyed local branch dereferences
`record.data || record.report_data`; if both are absent the resulting
TypeError is caught by the surrounding `catch`, which returns null —
modelled by the `none` arm. -/
def loadReportFromSupabase (remote : Option (List RemoteRow))
    (localRaw : Option (List (String × LocalRecord)))
    (idOrShortId : String) : Option InspectionProfile :=
  let isU := isUuidFormat idOrShortId
  let fromRemote : Option InspectionProfile :=
    match remote with
    | none => none
    | some table =>
      match remoteSingle table (loadQueryColumn idOrShortId) idOrShortId with
      | none => none
      | some row =>
        match row.data with
        | none => none
        | some profile =>
          some { profile with
            savedReportId := some row.id
            shortId := some row.short_id
            userId := row.user_id }
  match fromRemote with
  | some p => some p
  | none =>
    match localRaw with
    | none => none
    | some map =>
      if isU then
        match map.find? (fun kv => kv.1 = idOrShortId) with
        | none => none
        | some kv =>
          match kv.2.data <|> kv.2.report_data with
          | none => none
          | some stored => some { stored with savedReportId := some idOrShortId }
      else
        match map.find? (fun kv =>
            match kv.2.data with
            | some p => p.shortId = some idOrShortId
            | none => false) with
        | none => none
        | some kv =>
          match kv.2.data with
          | none => none
          | some stored => some stored

/-! ### Shared proof helpers and sample data -/

/-- Dividing an exact natural by itself yields exactly `1.0`
(significand `2^52`, exponent `-52`): the quotient is representable, so
IEEE division is exact. -/
theorem divFP_self (t : ℕ) (ht : t ≠ 0) : divFP t t = ⟨2 ^ 52, -52⟩ := by
  have hpos : 0 < t := Nat.pos_of_ne_zero ht
  simp only [divFP, sub_self, ltPow2]
  rw [if_neg (by simp [ht])]
  norm_num
  simp [hpos, Nat.mul_div_cancel_left _ hpos]

/-- A minimal concrete profile used to instantiate witness statements. -/
def sampleProfile : InspectionProfile :=
  { id := "1"
    savedReportId := none
    shortId := none
    userId := none
    address := "1 Main St"
    googleMapsUrl := none
    propertyType := "Ranch"
    floors := 1
    baths := 1
    bedrooms := 2
    sqft := none
    yearBuilt := none
    occupancy := none
    pets := none
    weather := none
    temperatureOutside := none
    temperatureInside := none
    gasType := none
    sewerType := none
    waterType := none
    electricPanel := none
    generatorType := none
    inspectorName := "Guest Inspector"
    createdAt := "2026-01-01T00:00:00.000Z"
    sections := [] }

/-- A sample untouched checklist item. -/
def sampleItem : InspectionChecklistItem :=
  { id := "i1"
    label := "Roof-Covering Materials"
    status := ItemStatus.untouched
    notes := ""
    photos := []
    options := none
    selectedOption := none
    isHidden := false }

/-- A sample pending section holding `sampleItem`, the shape produced by
the plan generator. -/
def sampleSection : InspectionSection :=
  { id := "s1"
    title := "Roof"
    iconName := "sun"
    description := "InterNACHI Standard"
    items := [sampleItem]
    photoUrl := none
    status := SectionStatus.pending }

/-! ### C2: computeProgress -/

/-- The visible-and-non-untouched count that feeds the progress ratio. -/
def visibleDone (p : InspectionProfile) : Nat :=
  ((visibleItems p).filter (fun i => i.status ≠ ItemStatus.untouched)).length

/-- C2 (amended): `calculateProgress` returns `Math.round` of the
IEEE-754 binary64 evaluation of `(done / total) * 100` over the
non-hidden items of all sections — which can differ by one from the exact
`round(100 · done / total)` when the rounded double product lands on the
other side of a half-integer (see the counterexample: 23 done of 40
visible gives 57, not `round(57.5) = 58`). It still returns exactly 0
with zero visible items, exactly 0 when every visible item is untouched,
exactly 100 when every visible item is non-untouched (and at least one
exists, since both divisions `0/t` and `t/t` are exact in binary64), and
recomputation without intervening mutation yields the same value. -/
theorem calculateProgress_ieee (p : InspectionProfile) :
    ((visibleItems p).length = 0 → calculateProgress p = 0)
    ∧ ((visibleItems p).length ≠ 0 →
        calculateProgress p =
          jsRoundFP (mulNatFP 100 (divFP (visibleDone p) (visibleItems p).length)))
    ∧ ((∀ i ∈ visibleItems p, i.status = ItemStatus.untouched) → calculateProgress p = 0)
    ∧ ((visibleItems p).length ≠ 0 →
        (∀ i ∈ visibleItems p, i.status ≠ ItemStatus.untouched) →
        calculateProgress p = 100)
    ∧ calculateProgress p = calculateProgress p := by
  refine ⟨fun h0 => ?_, fun hne => ?_, fun hall => ?_, fun hne hall => ?_, rfl⟩
  · simp [calculateProgress, h0]
  · rw [calculateProgress]
    simp only [if_neg hne]
    rfl
  · have hfil : (visibleItems p).filter (fun i => i.status ≠ ItemStatus.untouched) = [] := by
      simp only [List.filter_eq_nil_iff]
      intro a ha
      simp [hall a ha]
    rw [calculateProgress]
    by_cases h0 : (visibleItems p).length = 0
    · simp [h0]
    · simp only [if_neg h0, hfil, List.length_nil]
      simp [divFP, mulNatFP, jsRoundFP]
  · have hfil : (visibleItems p).filter (fun i => i.status ≠ ItemStatus.untouched)
        = visibleItems p := by
      rw [List.filter_eq_self]
      intro a ha
      simpa using hall a ha
    rw [calculateProgress]
    simp only [if_neg hne, hfil]
    rw [divFP_self _ hne]
    decide

/-- A reachable document with 40 visible items of which 23 are done. -/
def progressCexDoc : InspectionProfile :=
  { sampleProfile with sections := [{ sampleSection with
      items := List.replicate 23 { sampleItem with status := ItemStatus.pass }
        ++ List.replicate 17 sampleItem }] }

/-- Counterexample to C2 as stated: with 40 visible items of which 23 are
done, the binary64 value of `23/40` is just below `0.575`, the double
product `(23/40) * 100` is `57.49999999999999289…`, and the program
returns 57 — while the claimed exact `round(100 · 23/40) = round(57.5)`
is 58. -/
theorem calculateProgress_exact_round_cex :
    (visibleItems progressCexDoc).length = 40
    ∧ visibleDone progressCexDoc = 23
    ∧ calculateProgress progressCexDoc = 57
    ∧ round ((100 * 23 : ℚ) / 40) = 58 := by
  refine ⟨by decide, by decide, by decide, ?_⟩
  rw [round_eq]
  norm_num

/-- Witness for `calculateProgress_ieee` at a concrete document: one
section with one visible item marked `pass` gives 100. -/
theorem calculateProgress_ieee_witness :
    (visibleItems { sampleProfile with
        sections := [{ sampleSection with
          items := [{ sampleItem with status := ItemStatus.pass }] }] }).length ≠ 0
    ∧ calculateProgress { sampleProfile with
        sections := [{ sampleSection with
          items := [{ sampleItem with status := ItemStatus.pass }] }] } = 100 := by
  refine ⟨by decide, ?_⟩
  exact ((calculateProgress_ieee _).2.2.2.1) (by decide) (by decide)

/-! ### C3: save error classification -/

/-- C3: a remote upsert failure with code `42501` (permission denied),
`42P01` (missing table) or `PGRST204` (schema mismatch) still yields a
successful save carrying the locally-assigned key pair, with a warning
surfaced; any other remote error makes the save fail with an error and no
keys. -/
theorem saveReport_error_classification (inspection : InspectionProfile)
    (freshUuid freshShortId code msg : String) :
    ((code = "42501" ∨ code = "42P01" ∨ code = "PGRST204") →
      (saveReportToSupabase inspection freshUuid freshShortId
          (some (RemoteSaveResult.err code msg))).result =
        Except.ok (localKeys inspection freshUuid freshShortId)
      ∧ (saveReportToSupabase inspection freshUuid freshShortId
          (some (RemoteSaveResult.err code msg))).warning ≠ none)
    ∧ (¬(code = "42501" ∨ code = "42P01" ∨ code = "PGRST204") →
        (saveReportToSupabase inspection freshUuid freshShortId
            (some (RemoteSaveResult.err code msg))).result =
          Except.error ("Supabase Error " ++ code ++ ": " ++ msg)) := by
  constructor
  · rintro (h | h | h) <;> simp [saveReportToSupabase, localKeys, h]
  · intro h
    push_neg at h
    obtain ⟨h1, h2, h3⟩ := h
    simp [saveReportToSupabase, h1, h2, h3]

/-- Witness for `saveReport_error_classification`: permission-denied keeps
the local keys, an unrecognised error code fails the save. -/
theorem saveReport_error_classification_witness :
    (saveReportToSupabase sampleProfile "u-1" "s-1"
        (some (RemoteSaveResult.err "42501" "denied"))).result =
      Except.ok ("u-1", "s-1")
    ∧ (saveReportToSupabase sampleProfile "u-1" "s-1"
        (some (RemoteSaveResult.err "XX000" "boom"))).result =
      Except.error "Supabase Error XX000: boom" := by
  constructor
  · have h := (saveReport_error_classification sampleProfile "u-1" "s-1" "42501" "denied").1
      (Or.inl rfl)
    have hk : localKeys sampleProfile "u-1" "s-1" = ("u-1", "s-1") := by decide
    rw [h.1, hk]
  · exact (saveReport_error_classification sampleProfile "u-1" "s-1" "XX000" "boom").2
      (by decide)

/-! ### C7: load of an unknown identifier -/

/-- C7: when the identifier matches no remote row (by either key column)
and no local record (neither by map key nor by embedded short key) — in
particular when local storage is absent or unreadable (`localRaw = none`)
— the load routine returns `none`. The routine is a total function, so no
exception can escape it. -/
theorem loadReport_not_found (remote : Option (List RemoteRow))
    (localRaw : Option (List (String × LocalRecord))) (ident : String)
    (hr : ∀ table, remote = some table →
        ∀ row ∈ table, row.id ≠ ident ∧ row.short_id ≠ ident)
    (hl : ∀ m, localRaw = some m → ∀ kv ∈ m, kv.1 ≠ ident ∧
        ∀ prof, kv.2.data = some prof → prof.shortId ≠ some ident) :
    loadReportFromSupabase remote localRaw ident = none := by
  have hrem : ∀ table, remote = some table →
      remoteSingle table (loadQueryColumn ident) ident = none := by
    intro table ht
    unfold remoteSingle
    have hfil : table.filter (fun r =>
        match loadQueryColumn ident with
        | RemoteColumn.id => r.id = ident
        | RemoteColumn.short_id => r.short_id = ident) = [] := by
      rw [List.filter_eq_nil_iff]
      intro r hrmem
      obtain ⟨h1, h2⟩ := hr table ht r hrmem
      cases loadQueryColumn ident <;> simp [h1, h2]
    rw [hfil]
  have hlocal1 : ∀ m, localRaw = some m →
      m.find? (fun kv => kv.1 = ident) = none := by
    intro m hm
    rw [List.find?_eq_none]
    intro kv hkv
    simpa using (hl m hm kv hkv).1
  have hlocal2 : ∀ m, localRaw = some m →
      m.find? (fun kv =>
        match kv.2.data with
        | some p => p.shortId = some ident
        | none => false) = none := by
    intro m hm
    rw [List.find?_eq_none]
    intro kv hkv
    cases hd : kv.2.data with
    | none => simp
    | some p =>
      have := (hl m hm kv hkv).2 p hd
      simp [this]
  unfold loadReportFromSupabase
  cases remote with
  | none =>
    cases localRaw with
    | none => rfl
    | some m =>
      simp only [hlocal1 m rfl, hlocal2 m rfl]
      by_cases hu : isUuidFormat ident <;> simp [hu]
  | some table =>
    simp only [hrem table rfl]
    cases localRaw with
    | none => rfl
    | some m =>
      simp only [hlocal1 m rfl, hlocal2 m rfl]
      by_cases hu : isUuidFormat ident <;> simp [hu]

/-- Witness for `loadReport_not_found`: a configured remote backend with
one unrelated row and a local map with one unrelated record still yield
`none` for a stale identifier. -/
theorem loadReport_not_found_witness :
    loadReportFromSupabase
      (some [{ id := "11111111-1111-4111-8111-111111111111"
               short_id := "abcDEF123"
               user_id := none
               data := some sampleProfile }])
      (some [("11111111-1111-4111-8111-111111111111",
              { id := "11111111-1111-4111-8111-111111111111"
                data := some sampleProfile
                report_data := none
                created_at := "2026-01-01" })])
      "zzzzzzzzz" = none := by
  apply loadReport_not_found
  · intro table ht row hrow
    cases ht
    simp only [List.mem_singleton] at hrow
    subst hrow
    constructor <;> decide
  · intro m hm kv hkv
    cases hm
    simp only [List.mem_singleton] at hkv
    subst hkv
    refine ⟨by decide, ?_⟩
    intro prof hp
    have : sampleProfile = prof := by simpa using hp
    subst this
    decide

/-! ### C4 and C10: identifier classification -/

/-- Lemma: `hexRun n` succeeds exactly on a prefix of `n` hex digits. -/
theorem hexRun_eq_some (n : Nat) (cs r : List Char) :
    hexRun n cs = some r ↔
      ∃ pre, cs = pre ++ r ∧ pre.length = n ∧ pre.all isHexDigitCI = true := by
  induction n generalizing cs with
  | zero =>
    simp only [hexRun, Option.some.injEq]
    constructor
    · rintro rfl; exact ⟨[], rfl, rfl, rfl⟩
    · rintro ⟨pre, rfl, hlen, -⟩
      rw [List.length_eq_zero] at hlen
      subst hlen; rfl
  | succ n ih =>
    cases cs with
    | nil =>
      simp only [hexRun]
      constructor
      · intro h; exact absurd h (by simp)
      · rintro ⟨pre, heq, hlen, -⟩
        cases pre with
        | nil => simp at hlen
        | cons p ps => simp at heq
    | cons c cs =>
      simp only [hexRun]
      by_cases hc : isHexDigitCI c
      · rw [if_pos hc, ih]
        constructor
        · rintro ⟨pre, rfl, hlen, hall⟩
          exact ⟨c :: pre, rfl, by simp [hlen], by simp [List.all_cons, hc, hall]⟩
        · rintro ⟨pre, heq, hlen, hall⟩
          cases pre with
          | nil => simp at hlen
          | cons p ps =>
            simp only [List.cons_append, List.cons.injEq] at heq
            obtain ⟨rfl, rfl⟩ := heq
            simp only [List.all_cons, Bool.and_eq_true] at hall
            exact ⟨ps, rfl, by simpa using hlen, hall.2⟩
      · rw [if_neg hc]
        constructor
        · intro h; exact absurd h (by simp)
        · rintro ⟨pre, heq, hlen, hall⟩
          cases pre with
          | nil => simp at hlen
          | cons p ps =>
            simp only [List.cons_append, List.cons.injEq] at heq
            obtain ⟨rfl, -⟩ := heq
            simp only [List.all_cons, Bool.and_eq_true] at hall
            exact absurd hall.1 hc

/-- Lemma: `expectChar c` succeeds exactly when the list starts with `c`. -/
theorem expectChar_eq_some (c : Char) (cs r : List Char) :
    expectChar c cs = some r ↔ cs = c :: r := by
  cases cs with
  | nil => simp [expectChar]
  | cons d rest =>
    simp only [expectChar]
    by_cases hd : d = c
    · subst hd; simp
    · simp [hd, Ne.symm hd]

/-- The spec's description of a primary key: a hyphenated hex identifier
of the 8-4-4-4-12 pattern (36 characters in total, case-insensitive hex),
stated directly from the spec's words as a segment decomposition. -/
def specUuidShape (s : String) : Prop :=
  ∃ a b c d e : List Char,
    s.data = a ++ '-' :: (b ++ '-' :: (c ++ '-' :: (d ++ '-' :: e))) ∧
    a.length = 8 ∧ b.length = 4 ∧ c.length = 4 ∧ d.length = 4 ∧ e.length = 12 ∧
    a.all isHexDigitCI = true ∧ b.all isHexDigitCI = true ∧ c.all isHexDigitCI = true ∧
    d.all isHexDigitCI = true ∧ e.all isHexDigitCI = true

/-- The code's anchored regex accepts exactly the strings of the spec's
8-4-4-4-12 hyphenated hex shape. -/
theorem isUuidFormat_eq_true_iff (s : String) : isUuidFormat s = true ↔ specUuidShape s := by
  unfold isUuidFormat
  rw [decide_eq_true_iff]
  constructor
  · intro h
    rw [Option.bind_eq_some] at h
    obtain ⟨r8, h8, h9⟩ := h
    rw [Option.bind_eq_some] at h8
    obtain ⟨r7, h7, h8⟩ := h8
    rw [Option.bind_eq_some] at h7
    obtain ⟨r6, h6, h7⟩ := h7
    rw [Option.bind_eq_some] at h6
    obtain ⟨r5, h5, h6⟩ := h6
    rw [Option.bind_eq_some] at h5
    obtain ⟨r4, h4, h5⟩ := h5
    rw [Option.bind_eq_some] at h4
    obtain ⟨r3, h3, h4⟩ := h4
    rw [Option.bind_eq_some] at h3
    obtain ⟨r2, h2, h3⟩ := h3
    rw [Option.bind_eq_some] at h2
    obtain ⟨r1, h1, h2⟩ := h2
    rw [hexRun_eq_some] at h1 h3 h5 h7 h9
    rw [expectChar_eq_some] at h2 h4 h6 h8
    obtain ⟨a, ha, hal, hah⟩ := h1
    obtain ⟨b, hb, hbl, hbh⟩ := h3
    obtain ⟨c, hc, hcl, hch⟩ := h5
    obtain ⟨d, hd, hdl, hdh⟩ := h7
    obtain ⟨e, he, hel, heh⟩ := h9
    refine ⟨a, b, c, d, e, ?_, hal, hbl, hcl, hdl, hel, hah, hbh, hch, hdh, heh⟩
    rw [ha, h2, hb, h4, hc, h6, hd, h8, he]
    simp
  · rintro ⟨a, b, c, d, e, hs, hal, hbl, hcl, hdl, hel, hah, hbh, hch, hdh, heh⟩
    have h1 : hexRun 8 s.data = some ('-' :: (b ++ '-' :: (c ++ '-' :: (d ++ '-' :: e)))) :=
      (hexRun_eq_some _ _ _).mpr ⟨a, by rw [hs], hal, hah⟩
    have h2 := (expectChar_eq_some '-' _ (b ++ '-' :: (c ++ '-' :: (d ++ '-' :: e)))).mpr rfl
    have h3 : hexRun 4 (b ++ '-' :: (c ++ '-' :: (d ++ '-' :: e)))
        = some ('-' :: (c ++ '-' :: (d ++ '-' :: e))) :=
      (hexRun_eq_some _ _ _).mpr ⟨b, rfl, hbl, hbh⟩
    have h4 := (expectChar_eq_some '-' _ (c ++ '-' :: (d ++ '-' :: e))).mpr rfl
    have h5 : hexRun 4 (c ++ '-' :: (d ++ '-' :: e)) = some ('-' :: (d ++ '-' :: e)) :=
      (hexRun_eq_some _ _ _).mpr ⟨c, rfl, hcl, hch⟩
    have h6 := (expectChar_eq_some '-' _ (d ++ '-' :: e)).mpr rfl
    have h7 : hexRun 4 (d ++ '-' :: e) = some ('-' :: e) :=
      (hexRun_eq_some _ _ _).mpr ⟨d, rfl, hdl, hdh⟩
    have h8 := (expectChar_eq_some '-' _ e).mpr rfl
    have h9 : hexRun 12 e = some [] :=
      (hexRun_eq_some _ _ _).mpr ⟨e, by simp, hel, heh⟩
    rw [h1]
    simp only [Option.some_bind]
    rw [h2]
    simp only [Option.some_bind]
    rw [h3]
    simp only [Option.some_bind]
    rw [h4]
    simp only [Option.some_bind]
    rw [h5]
    simp only [Option.some_bind]
    rw [h6]
    simp only [Option.some_bind]
    rw [h7]
    simp only [Option.some_bind]
    rw [h8]
    simp only [Option.some_bind]
    rw [h9]

/-- Any string the regex accepts has exactly 36 characters. -/
theorem length_of_uuidFormat (s : String) (h : isUuidFormat s = true) :
    s.data.length = 36 := by
  obtain ⟨a, b, c, d, e, hs, hal, hbl, hcl, hdl, hel, -⟩ := (isUuidFormat_eq_true_iff s).mp h
  simp [hs, hal, hbl, hcl, hdl, hel]

/-- C4: the load routine decides the remote lookup column solely by the
8-4-4-4-12 hyphenated hex pattern — a matching identifier is looked up by
the primary-key column `id`, any other identifier by the short-key column
`short_id`; `loadQueryColumn` takes only the identifier string, so no
separate flag is consulted. -/
theorem loadQueryColumn_by_pattern (s : String) :
    (loadQueryColumn s = RemoteColumn.id ↔ specUuidShape s)
    ∧ (loadQueryColumn s = RemoteColumn.short_id ↔ ¬ specUuidShape s) := by
  unfold loadQueryColumn
  by_cases h : isUuidFormat s = true
  · rw [if_pos h]
    have hs := (isUuidFormat_eq_true_iff s).mp h
    simp [hs]
  · rw [if_neg h]
    have hs : ¬ specUuidShape s := fun hc => h ((isUuidFormat_eq_true_iff s).mpr hc)
    simp [hs]

/-- Witness for `loadQueryColumn_by_pattern` on a canonical identifier and
a short key. -/
theorem loadQueryColumn_by_pattern_witness :
    loadQueryColumn "123e4567-e89b-42d3-a456-426614174000" = RemoteColumn.id
    ∧ specUuidShape "123e4567-e89b-42d3-a456-426614174000"
    ∧ loadQueryColumn "abcDEF123" = RemoteColumn.short_id := by
  have h1 : loadQueryColumn "123e4567-e89b-42d3-a456-426614174000" = RemoteColumn.id := by
    decide
  exact ⟨h1, (loadQueryColumn_by_pattern _).1.mp h1,
    (loadQueryColumn_by_pattern _).2.mpr (fun hc => by
      have := (isUuidFormat_eq_true_iff "abcDEF123").mpr hc
      exact absurd this (by decide))⟩

/-- Every value of the per-draw `'x'` replacement is a hex digit. -/
theorem hexDigit_x_hex : ∀ v : Fin 16, isHexDigitCI (hexDigitOfNat v.val) = true := by
  decide

/-- Every value of the per-draw `'y'` replacement `(r & 0x3) | 0x8` is a
hex digit. -/
theorem hexDigit_y_hex :
    ∀ v : Fin 16, isHexDigitCI (hexDigitOfNat ((v.val &&& 0x3) ||| 0x8)) = true := by
  decide

theorem hex4 : isHexDigitCI '4' = true := by decide

/-- The fallback generator's output, fully unfolded over the template. -/
theorem replaceTemplate_unfold (draws : Nat → Fin 16) :
    replaceTemplate draws uuidTemplate 0 =
      [hexDigitOfNat (draws 0).val, hexDigitOfNat (draws 1).val, hexDigitOfNat (draws 2).val,
       hexDigitOfNat (draws 3).val, hexDigitOfNat (draws 4).val, hexDigitOfNat (draws 5).val,
       hexDigitOfNat (draws 6).val, hexDigitOfNat (draws 7).val] ++ '-' ::
      ([hexDigitOfNat (draws 8).val, hexDigitOfNat (draws 9).val, hexDigitOfNat (draws 10).val,
        hexDigitOfNat (draws 11).val] ++ '-' ::
      (['4', hexDigitOfNat (draws 12).val, hexDigitOfNat (draws 13).val,
        hexDigitOfNat (draws 14).val] ++ '-' ::
      ([hexDigitOfNat (((draws 15).val &&& 0x3) ||| 0x8), hexDigitOfNat (draws 16).val,
        hexDigitOfNat (draws 17).val, hexDigitOfNat (draws 18).val] ++ '-' ::
      [hexDigitOfNat (draws 19).val, hexDigitOfNat (draws 20).val, hexDigitOfNat (draws 21).val,
       hexDigitOfNat (draws 22).val, hexDigitOfNat (draws 23).val, hexDigitOfNat (draws 24).val,
       hexDigitOfNat (draws 25).val, hexDigitOfNat (draws 26).val, hexDigitOfNat (draws 27).val,
       hexDigitOfNat (draws 28).val, hexDigitOfNat (draws 29).val,
       hexDigitOfNat (draws 30).val]))) := by
  simp [replaceTemplate, uuidTemplate]

/-- Every output of the `Math.random` fallback path matches the regex. -/
theorem fallback_isUuid (draws : Nat → Fin 16) :
    isUuidFormat (generateUUIDFallback draws) = true := by
  rw [isUuidFormat_eq_true_iff]
  refine ⟨[hexDigitOfNat (draws 0).val, hexDigitOfNat (draws 1).val, hexDigitOfNat (draws 2).val,
       hexDigitOfNat (draws 3).val, hexDigitOfNat (draws 4).val, hexDigitOfNat (draws 5).val,
       hexDigitOfNat (draws 6).val, hexDigitOfNat (draws 7).val],
      [hexDigitOfNat (draws 8).val, hexDigitOfNat (draws 9).val, hexDigitOfNat (draws 10).val,
        hexDigitOfNat (draws 11).val],
      ['4', hexDigitOfNat (draws 12).val, hexDigitOfNat (draws 13).val,
        hexDigitOfNat (draws 14).val],
      [hexDigitOfNat (((draws 15).val &&& 0x3) ||| 0x8), hexDigitOfNat (draws 16).val,
        hexDigitOfNat (draws 17).val, hexDigitOfNat (draws 18).val],
      [hexDigitOfNat (draws 19).val, hexDigitOfNat (draws 20).val, hexDigitOfNat (draws 21).val,
       hexDigitOfNat (draws 22).val, hexDigitOfNat (draws 23).val, hexDigitOfNat (draws 24).val,
       hexDigitOfNat (draws 25).val, hexDigitOfNat (draws 26).val, hexDigitOfNat (draws 27).val,
       hexDigitOfNat (draws 28).val, hexDigitOfNat (draws 29).val,
       hexDigitOfNat (draws 30).val], ?_, ?_, ?_, ?_, ?_, ?_, ?_, ?_, ?_, ?_, ?_⟩
  · exact replaceTemplate_unfold draws
  all_goals simp [List.all_cons, hexDigit_x_hex, hexDigit_y_hex, hex4]

/-- Modelled from the platform specification of `crypto.randomUUID` (the
primary path of `generateUUID`, which is a browser API and not repository
code): its return value is a canonical lower-case UUID string — five
hyphen-separated lower-case-hex groups of lengths 8, 4, 4, 4 and 12. The
platform's additional version/variant constraints are deliberately not
imposed; dropping them only widens the premise of the theorem below. -/
def isCryptoUUIDOutput (s : String) : Prop :=
  ∃ a b c d e : List Char,
    s.data = a ++ '-' :: (b ++ '-' :: (c ++ '-' :: (d ++ '-' :: e))) ∧
    a.length = 8 ∧ b.length = 4 ∧ c.length = 4 ∧ d.length = 4 ∧ e.length = 12 ∧
    a.all isLowerHexDigit = true ∧ b.all isLowerHexDigit = true ∧
    c.all isLowerHexDigit = true ∧ d.all isLowerHexDigit = true ∧
    e.all isLowerHexDigit = true

theorem isHexDigitCI_of_lower (c : Char) (h : isLowerHexDigit c = true) :
    isHexDigitCI c = true := by
  unfold isLowerHexDigit at h
  unfold isHexDigitCI
  rcases Bool.or_eq_true_iff.mp h with h1 | h1 <;> simp [h1]

theorem all_hexCI_of_all_lower (l : List Char) (h : l.all isLowerHexDigit = true) :
    l.all isHexDigitCI = true := by
  rw [List.all_eq_true] at h ⊢
  exact fun c hc => isHexDigitCI_of_lower c (h c hc)

/-- C10: every primary key the generator can produce — on the
`crypto.randomUUID` path or on the `Math.random` fallback path — matches
the 8-4-4-4-12 pattern the load routine classifies by, and so is routed
to the primary-key column; every 9-character short key fails the pattern
(it is 9 characters long, the pattern requires 36) and is routed to the
short-key column. -/
theorem generated_keys_routed :
    (∀ draws : Nat → Fin 16,
      loadQueryColumn (generateUUIDFallback draws) = RemoteColumn.id)
    ∧ (∀ s : String, isCryptoUUIDOutput s → loadQueryColumn s = RemoteColumn.id)
    ∧ (∀ draws : Fin 9 → Fin 62,
      loadQueryColumn (generateShortId draws) = RemoteColumn.short_id) := by
  refine ⟨fun draws => ?_, fun s hs => ?_, fun draws => ?_⟩
  · unfold loadQueryColumn
    rw [if_pos (fallback_isUuid draws)]
  · unfold loadQueryColumn
    obtain ⟨a, b, c, d, e, heq, hal, hbl, hcl, hdl, hel, ha, hb, hc, hd, he⟩ := hs
    have : isUuidFormat s = true :=
      (isUuidFormat_eq_true_iff s).mpr
        ⟨a, b, c, d, e, heq, hal, hbl, hcl, hdl, hel,
         all_hexCI_of_all_lower a ha, all_hexCI_of_all_lower b hb,
         all_hexCI_of_all_lower c hc, all_hexCI_of_all_lower d hd,
         all_hexCI_of_all_lower e he⟩
    rw [if_pos this]
  · unfold loadQueryColumn
    rw [if_neg]
    intro h
    have h36 := length_of_uuidFormat _ h
    simp [generateShortId] at h36

/-- Witness for `generated_keys_routed` at concrete draws and a concrete
canonical lower-case UUID. -/
theorem generated_keys_routed_witness :
    loadQueryColumn (generateUUIDFallback (fun _ => 0)) = RemoteColumn.id
    ∧ loadQueryColumn "00112233-4455-6677-8899-aabbccddeeff" = RemoteColumn.id
    ∧ loadQueryColumn (generateShortId (fun _ => 0)) = RemoteColumn.short_id := by
  refine ⟨generated_keys_routed.1 _, generated_keys_routed.2.1 _ ?_,
    generated_keys_routed.2.2 _⟩
  refine ⟨['0','0','1','1','2','2','3','3'], ['4','4','5','5'], ['6','6','7','7'],
    ['8','8','9','9'], ['a','a','b','b','c','c','d','d','e','e','f','f'],
    ?_, ?_, ?_, ?_, ?_, ?_, ?_, ?_, ?_, ?_, ?_⟩ <;> decide

/-- Mapping a function that fixes every member of a list is the identity. -/
theorem map_eq_self_of_mem {α : Type} {f : α → α} {l : List α}
    (h : ∀ a ∈ l, f a = a) : l.map f = l := by
  induction l with
  | nil => rfl
  | cons a l ih =>
    rw [List.map_cons, h a (List.mem_cons_self a l),
      ih (fun b hb => h b (List.mem_cons_of_mem a hb))]

/-! ### C5: the two note-writing modes -/

/-- C5: `setItemNotes` invoked from user input (`updateItemNote`) fully
replaces the target item's notes with the given text — every item of the
result either carries exactly the new text or is an unchanged original
item, so nothing is appended — while the machine-generated image analysis
(`processImageAnalysisUpdate`) appends, producing
`"<prior notes>\nAI Note: <text>"` when the prior notes were non-empty and
just `<text>` when they were empty. -/
theorem setItemNotes_two_modes (p : InspectionProfile) (sId iId txt d : String) :
    (∀ sec ∈ p.sections, sec.id = sId → ∀ i ∈ sec.items, i.id = iId →
      ∃ sec2 ∈ (updateItemNote sId iId txt p).sections,
        ({ i with notes := txt } : InspectionChecklistItem) ∈ sec2.items)
    ∧ (∀ sec2 ∈ (updateItemNote sId iId txt p).sections, ∀ i2 ∈ sec2.items,
        i2.notes = txt ∨ ∃ sec ∈ p.sections, ∃ i ∈ sec.items, i2 = i)
    ∧ (∀ sec ∈ p.sections, sec.id = sId → ∀ i ∈ sec.items, i.id = iId →
      ∃ sec2 ∈ (processImageAnalysisUpdate sId iId d p).sections,
        ({ i with notes :=
            if i.notes = "" then d else i.notes ++ "\nAI Note: " ++ d } :
          InspectionChecklistItem) ∈ sec2.items) := by
  refine ⟨fun sec hsec hsid i hi hiid => ?_, fun sec2 hsec2 i2 hi2 => ?_,
    fun sec hsec hsid i hi hiid => ?_⟩
  · refine ⟨_, List.mem_map_of_mem _ hsec, ?_⟩
    rw [if_neg (fun hne => hne hsid)]
    have hgi : ({ i with notes := txt } : InspectionChecklistItem) =
        (fun item => if item.id = iId then { item with notes := txt } else item) i := by
      simp [hiid]
    rw [hgi]
    exact List.mem_map_of_mem _ hi
  · rw [updateItemNote] at hsec2
    obtain ⟨sec, hsec, rfl⟩ := List.mem_map.mp hsec2
    by_cases hsid : sec.id = sId
    · rw [if_neg (fun hne => hne hsid)] at hi2
      obtain ⟨i, hi, rfl⟩ := List.mem_map.mp hi2
      by_cases hiid : i.id = iId
      · rw [if_pos hiid]
        exact Or.inl rfl
      · rw [if_neg hiid]
        exact Or.inr ⟨sec, hsec, i, hi, rfl⟩
    · rw [if_pos hsid] at hi2
      exact Or.inr ⟨sec, hsec, _, hi2, rfl⟩
  · refine ⟨_, List.mem_map_of_mem _ hsec, ?_⟩
    rw [if_neg (fun hne => hne hsid)]
    have hgi : ({ i with notes :=
          if i.notes = "" then d else i.notes ++ "\nAI Note: " ++ d } :
        InspectionChecklistItem) =
        (fun it => if it.id = iId then { it with notes := aiNoteText it.notes d } else it) i := by
      simp [hiid, aiNoteText]
    rw [hgi]
    exact List.mem_map_of_mem _ hi

/-- Witness for `setItemNotes_two_modes` on a one-item document with
prior notes `"old"`: the user mode writes `"new"`, the analysis mode
appends `"old\nAI Note: crack visible"`. -/
theorem setItemNotes_two_modes_witness :
    (∃ sec2 ∈ (updateItemNote "s1" "i1" "new"
        { sampleProfile with sections := [{ sampleSection with
            items := [{ sampleItem with notes := "old" }] }] }).sections,
      ({ sampleItem with notes := "new" } : InspectionChecklistItem) ∈ sec2.items)
    ∧ (∃ sec2 ∈ (processImageAnalysisUpdate "s1" "i1" "crack visible"
        { sampleProfile with sections := [{ sampleSection with
            items := [{ sampleItem with notes := "old" }] }] }).sections,
      ({ sampleItem with notes := "old\nAI Note: crack visible" } :
        InspectionChecklistItem) ∈ sec2.items) := by
  constructor
  · have h := (setItemNotes_two_modes
        { sampleProfile with sections := [{ sampleSection with
            items := [{ sampleItem with notes := "old" }] }] }
        "s1" "i1" "new" "crack visible").1
        { sampleSection with items := [{ sampleItem with notes := "old" }] }
        (by simp) rfl { sampleItem with notes := "old" } (by simp) rfl
    simpa using h
  · have h := (setItemNotes_two_modes
        { sampleProfile with sections := [{ sampleSection with
            items := [{ sampleItem with notes := "old" }] }] }
        "s1" "i1" "new" "crack visible").2.2
        { sampleSection with items := [{ sampleItem with notes := "old" }] }
        (by simp) rfl { sampleItem with notes := "old" } (by simp) rfl
    simpa using h

/-! ### C9: addPhoto frame conditions -/

/-- C9: capturing a photo for an item appends the image to exactly that
item's photo list — every other item (in the same or another section) is
returned unchanged, and every section's cover `photoUrl` (and id and
derived status) is unchanged; capturing with no item target replaces the
target section's single `photoUrl` with the image (last write wins),
leaving every item list unchanged and every other section untouched. -/
theorem addPhoto_frame (p : InspectionProfile) (sId iId img : String) :
    List.Forall₂ (fun sec sec2 =>
        sec2.id = sec.id ∧ sec2.photoUrl = sec.photoUrl ∧ sec2.status = sec.status ∧
        List.Forall₂ (fun i i2 =>
          if sec.id = sId ∧ i.id = iId
          then i2 = { i with photos := i.photos ++ [img] }
          else i2 = i) sec.items sec2.items)
      p.sections (handleCapturePhoto ⟨sId, some iId⟩ img p).sections
    ∧ List.Forall₂ (fun sec sec2 =>
        sec2.items = sec.items ∧
        (sec.id = sId → sec2 = { sec with photoUrl := some img }) ∧
        (sec.id ≠ sId → sec2 = sec))
      p.sections (handleCapturePhoto ⟨sId, none⟩ img p).sections := by
  constructor
  · rw [handleCapturePhoto, List.forall₂_map_right_iff, List.forall₂_same]
    intro sec hsec
    by_cases hsid : sec.id = sId
    · rw [if_neg (fun hne => hne hsid)]
      refine ⟨rfl, rfl, rfl, ?_⟩
      rw [List.forall₂_map_right_iff, List.forall₂_same]
      intro i hi
      by_cases hiid : i.id = iId
      · rw [if_pos hiid, if_pos ⟨hsid, hiid⟩]
      · rw [if_neg hiid, if_neg (fun hc => hiid hc.2)]
    · rw [if_pos hsid]
      refine ⟨rfl, rfl, rfl, ?_⟩
      rw [List.forall₂_same]
      intro i hi
      rw [if_neg (fun hc => hsid hc.1)]
  · rw [handleCapturePhoto, List.forall₂_map_right_iff, List.forall₂_same]
    intro sec hsec
    by_cases hsid : sec.id = sId
    · rw [if_neg (fun hne => hne hsid)]
      exact ⟨rfl, fun _ => rfl, fun hne => absurd hsid hne⟩
    · rw [if_pos hsid]
      exact ⟨rfl, fun heq => absurd heq hsid, fun _ => rfl⟩

/-- Witness for `addPhoto_frame` at a concrete one-section document. -/
theorem addPhoto_frame_witness :
    List.Forall₂ (fun sec sec2 =>
        sec2.id = sec.id ∧ sec2.photoUrl = sec.photoUrl ∧ sec2.status = sec.status ∧
        List.Forall₂ (fun i i2 =>
          if sec.id = "s1" ∧ i.id = "i1"
          then i2 = { i with photos := i.photos ++ ["img"] }
          else i2 = i) sec.items sec2.items)
      [sampleSection]
      (handleCapturePhoto ⟨"s1", some "i1"⟩ "img"
        { sampleProfile with sections := [sampleSection] }).sections :=
  (addPhoto_frame { sampleProfile with sections := [sampleSection] } "s1" "i1" "img").1

/-! ### C8: hide/show round trip -/

/-- Rebuilding a profile with a member-wise-identity map over its sections
is the identity. -/
theorem sections_map_eq_self {p : InspectionProfile}
    {f : InspectionSection → InspectionSection}
    (h : ∀ sec ∈ p.sections, f sec = sec) :
    ({ p with sections := p.sections.map f } : InspectionProfile) = p := by
  have hm := map_eq_self_of_mem h
  cases p
  simp_all

/-- Rebuilding a section with a member-wise-identity map over its items is
the identity. -/
theorem items_map_eq_self {sec : InspectionSection}
    {g : InspectionChecklistItem → InspectionChecklistItem}
    (h : ∀ i ∈ sec.items, g i = i) :
    ({ sec with items := sec.items.map g } : InspectionSection) = sec := by
  have hm := map_eq_self_of_mem h
  cases sec
  simp_all

/-- C8 (amended): hiding then showing an item leaves its stored id, label,
status, notes, photos, options and selected option untouched in every
case, and when every targeted item was visible to begin with
(`isHidden = false`, which also covers TypeScript's absent field — every
read in the source is a truthiness test) the round trip is the identity on
the whole document. For an initially hidden item the round trip instead
ends with `isHidden = false` (see the counterexample). -/
theorem hideShow_roundtrip (p : InspectionProfile) (sId iId : String) :
    List.Forall₂ (fun sec sec2 =>
        sec2.id = sec.id ∧ sec2.photoUrl = sec.photoUrl ∧ sec2.status = sec.status ∧
        List.Forall₂ (fun i i2 =>
            i2.id = i.id ∧ i2.label = i.label ∧ i2.status = i.status ∧
            i2.notes = i.notes ∧ i2.photos = i.photos ∧ i2.options = i.options ∧
            i2.selectedOption = i.selectedOption) sec.items sec2.items)
      p.sections
      (toggleItemVisibility sId iId false (toggleItemVisibility sId iId true p)).sections
    ∧ ((∀ sec ∈ p.sections, sec.id = sId → ∀ i ∈ sec.items, i.id = iId →
          i.isHidden = false) →
        toggleItemVisibility sId iId false (toggleItemVisibility sId iId true p) = p) := by
  constructor
  · rw [toggleItemVisibility, toggleItemVisibility]
    simp only [List.map_map]
    rw [List.forall₂_map_right_iff, List.forall₂_same]
    intro sec hsec
    by_cases hsid : sec.id = sId
    · simp only [Function.comp, if_neg (fun hne : sec.id ≠ sId => hne hsid)]
      refine ⟨trivial, trivial, trivial, ?_⟩
      simp only [List.map_map]
      rw [List.forall₂_map_right_iff, List.forall₂_same]
      intro i hi
      by_cases hiid : i.id = iId
      · simp [Function.comp, hiid]
      · simp [Function.comp, hiid]
    · simp only [Function.comp, if_pos hsid]
      refine ⟨trivial, trivial, trivial, List.forall₂_same.mpr ?_⟩
      exact fun i _ => ⟨rfl, rfl, rfl, rfl, rfl, rfl, rfl⟩
  · intro hvis
    rw [toggleItemVisibility, toggleItemVisibility]
    simp only [List.map_map]
    apply sections_map_eq_self
    intro sec hsec
    by_cases hsid : sec.id = sId
    · simp only [Function.comp, if_neg (fun hne : sec.id ≠ sId => hne hsid),
        List.map_map]
      apply items_map_eq_self
      intro i hi
      by_cases hiid : i.id = iId
      · simp only [Function.comp, if_pos hiid]
        have h0 := hvis sec hsec hsid i hi hiid
        cases i
        simp_all
      · simp [Function.comp, hiid]
    · simp [Function.comp, hsid]

/-- Counterexample to C8 as stated: for an item that is already hidden,
hide-then-show does not restore the original item — it ends un-hidden. -/
theorem hideShow_roundtrip_cex :
    toggleItemVisibility "s1" "i1" false (toggleItemVisibility "s1" "i1" true
      { sampleProfile with sections := [{ sampleSection with
          items := [{ sampleItem with isHidden := true }] }] })
    ≠ { sampleProfile with sections := [{ sampleSection with
          items := [{ sampleItem with isHidden := true }] }] } := by
  decide

/-- Witness for `hideShow_roundtrip` at a concrete document whose item is
visible: the round trip is the identity. -/
theorem hideShow_roundtrip_witness :
    toggleItemVisibility "s1" "i1" false (toggleItemVisibility "s1" "i1" true
      { sampleProfile with sections := [sampleSection] })
    = { sampleProfile with sections := [sampleSection] } :=
  (hideShow_roundtrip { sampleProfile with sections := [sampleSection] } "s1" "i1").2
    (by decide)

/-! ### C6: missing-identifier behaviour of the mutator operations -/

/-- C6 (amended): with a section id that matches no section, all five
mutators return the document unchanged; with an existing section but an
item id that matches no item in it, `setItemOption`, `setItemNotes`,
`setItemVisibility` and `removePhoto` return the document unchanged, while
`setItemStatus` still recomputes the matched section's derived status, so
it returns the document unchanged exactly when each matched section's
stored status already equals the derived one (the counterexample shows it
rewrites a stale status). All the operations are total functions, so none
of them can throw. -/
theorem missing_ids_noop (p : InspectionProfile) (sId iId : String) (st : ItemStatus)
    (opt txt : String) (hid : Bool) (k : Nat) :
    ((∀ sec ∈ p.sections, sec.id ≠ sId) →
      updateItemStatus sId iId st p = p ∧ updateItemOption sId iId opt p = p ∧
      updateItemNote sId iId txt p = p ∧ toggleItemVisibility sId iId hid p = p ∧
      deletePhoto sId iId k p = p)
    ∧ ((∀ sec ∈ p.sections, sec.id = sId → ∀ i ∈ sec.items, i.id ≠ iId) →
      updateItemOption sId iId opt p = p ∧ updateItemNote sId iId txt p = p ∧
      toggleItemVisibility sId iId hid p = p ∧ deletePhoto sId iId k p = p)
    ∧ ((∀ sec ∈ p.sections, sec.id = sId → ∀ i ∈ sec.items, i.id ≠ iId) →
      (∀ sec ∈ p.sections, sec.id = sId → sec.status = sectionStatusOf sec.items) →
      updateItemStatus sId iId st p = p) := by
  refine ⟨fun hno => ?_, fun hni => ?_, fun hni hstat => ?_⟩
  · refine ⟨?_, ?_, ?_, ?_, ?_⟩ <;>
    · simp only [updateItemStatus, updateItemOption, updateItemNote,
        toggleItemVisibility, deletePhoto]
      apply sections_map_eq_self
      intro sec hsec
      rw [if_pos (hno sec hsec)]
  · refine ⟨?_, ?_, ?_, ?_⟩ <;>
    · simp only [updateItemOption, updateItemNote, toggleItemVisibility, deletePhoto]
      apply sections_map_eq_self
      intro sec hsec
      by_cases hsid : sec.id = sId
      · rw [if_neg (fun hne => hne hsid)]
        apply items_map_eq_self
        intro i hi
        first
        | rw [if_neg (hni sec hsec hsid i hi)]
        | rw [if_pos (hni sec hsec hsid i hi)]
      · rw [if_pos hsid]
  · simp only [updateItemStatus]
    apply sections_map_eq_self
    intro sec hsec
    by_cases hsid : sec.id = sId
    · rw [if_neg (fun hne => hne hsid)]
      have hu : (sec.items.map fun item =>
          if item.id = iId then { item with status := st } else item) = sec.items :=
        map_eq_self_of_mem (fun i hi => if_neg (hni sec hsec hsid i hi))
      rw [hu, ← hstat sec hsec hsid]
    · rw [if_pos hsid]

/-- Counterexample to C6 as stated: on a document whose stored section
status (`pending`) disagrees with the derived one, `setItemStatus` with a
missing item id does not return the document unchanged — it recomputes the
section's status. -/
theorem missing_ids_noop_cex :
    updateItemStatus "s1" "bogus" ItemStatus.pass
      { sampleProfile with sections := [{ sampleSection with
          items := [{ sampleItem with status := ItemStatus.pass }] }] }
    ≠ { sampleProfile with sections := [{ sampleSection with
          items := [{ sampleItem with status := ItemStatus.pass }] }] } := by
  decide

/-- Witness for `missing_ids_noop`: a missing section id and a missing
item id (with a consistent stored status) both leave a concrete document
unchanged. -/
theorem missing_ids_noop_witness :
    updateItemOption "sX" "iX" "opt" { sampleProfile with sections := [sampleSection] }
      = { sampleProfile with sections := [sampleSection] }
    ∧ updateItemStatus "s1" "iX" ItemStatus.pass
        { sampleProfile with sections := [sampleSection] }
      = { sampleProfile with sections := [sampleSection] } := by
  constructor
  · exact ((missing_ids_noop { sampleProfile with sections := [sampleSection] }
      "sX" "iX" ItemStatus.pass "opt" "txt" false 0).1 (by decide)).2.1
  · exact (missing_ids_noop { sampleProfile with sections := [sampleSection] }
      "s1" "iX" ItemStatus.pass "opt" "txt" false 0).2.2 (by decide) (by decide)

/-! ### C1: the derived section-status invariant -/

/-- The invariant asserted by the claim for one section: `status` is
`completed` iff every item (hidden or not) is non-`untouched` and
`pending` iff every item is `untouched`; since the status enum has exactly
three values, these two clauses also force `in-progress` in every
remaining case. -/
def claimedSectionInvariant (sec : InspectionSection) : Prop :=
  (sec.status = SectionStatus.completed ↔
    ∀ i ∈ sec.items, i.status ≠ ItemStatus.untouched)
  ∧ (sec.status = SectionStatus.pending ↔
    ∀ i ∈ sec.items, i.status = ItemStatus.untouched)

/-- The rollup `sectionStatusOf` satisfies the claimed invariant on every
non-empty item list. (On an empty list it returns `completed`, where the
claimed invariant is vacuously contradictory, since both "every item is
untouched" and "every item is non-untouched" hold.) -/
theorem sectionStatusOf_spec (items : List InspectionChecklistItem) (hne : items ≠ []) :
    (sectionStatusOf items = SectionStatus.completed ↔
      ∀ i ∈ items, i.status ≠ ItemStatus.untouched)
    ∧ (sectionStatusOf items = SectionStatus.pending ↔
      ∀ i ∈ items, i.status = ItemStatus.untouched) := by
  have hpos : 0 < items.length := List.length_pos.mpr hne
  have hle : (items.filter (fun i => i.status = ItemStatus.untouched)).length
      ≤ items.length := List.length_filter_le _ _
  have hall0 : (∀ i ∈ items, i.status ≠ ItemStatus.untouched) ↔
      (items.filter (fun i => i.status = ItemStatus.untouched)).length = 0 := by
    rw [List.length_eq_zero, List.filter_eq_nil_iff]
    constructor
    · intro h i hi
      simpa using h i hi
    · intro h i hi
      simpa using h i hi
  have halln : (∀ i ∈ items, i.status = ItemStatus.untouched) ↔
      (items.filter (fun i => i.status = ItemStatus.untouched)).length
        = items.length := by
    rw [List.filter_length_eq_length]
    constructor
    · intro h i hi
      simpa using h i hi
    · intro h i hi
      simpa using h i hi
  simp only [sectionStatusOf]
  set u := (items.filter (fun i => i.status = ItemStatus.untouched)).length with hu
  by_cases h1 : items.length - u = items.length
  · rw [if_pos h1]
    have hu0 : u = 0 := by omega
    refine ⟨⟨fun _ => hall0.mpr hu0, fun _ => rfl⟩, ⟨fun hc => absurd hc (by simp),
      fun hall => ?_⟩⟩
    exfalso
    have := halln.mp hall
    omega
  · rw [if_neg h1]
    by_cases h2 : items.length - u > 0
    · rw [if_pos h2]
      refine ⟨⟨fun hc => absurd hc (by simp), fun hall => ?_⟩,
        ⟨fun hc => absurd hc (by simp), fun hall => ?_⟩⟩
      · exfalso
        have := hall0.mp hall
        omega
      · exfalso
        have := halln.mp hall
        omega
    · rw [if_neg h2]
      have hul : u = items.length := by omega
      refine ⟨⟨fun hc => absurd hc (by simp), fun hall => ?_⟩,
        ⟨fun _ => halln.mpr hul, fun _ => rfl⟩⟩
      exfalso
      have := hall0.mp hall
      omega

/-- Remapping a section's items with a status-preserving function
preserves the claimed invariant. -/
theorem claimedInv_map_items {sec : InspectionSection}
    {g : InspectionChecklistItem → InspectionChecklistItem}
    (hg : ∀ i, (g i).status = i.status)
    (h : claimedSectionInvariant sec) :
    claimedSectionInvariant { sec with items := sec.items.map g } := by
  simp only [claimedSectionInvariant, List.forall_mem_map, hg] at h ⊢
  exact h

/-- C1 (amended): (1) a `setItemStatus` call establishes the claimed
invariant on every matched section with at least one item and returns
every unmatched section unchanged (so the invariant holds for all
sections after any sequence of such calls on a document whose unmatched
sections already satisfied it); (2) `setItemOption`, `setItemNotes`, the
analysis note append, `setItemVisibility`, `removePhoto`, `addPhoto` and
the bulk un-hide all preserve the invariant document-wide; (3) appending
freshly generated `untouched` items preserves it only when no matched
section is in `completed` status — appending to a completed section
leaves its stale `completed` status (see the counterexample), which is
not recomputed until the next `setItemStatus` call on that section;
(4) appending a freshly generated section (`pending`, non-empty,
all-`untouched`) preserves it. -/
theorem sectionStatus_invariant_ops :
    (∀ (p : InspectionProfile) (sId iId : String) (st : ItemStatus),
      ∀ sec ∈ (updateItemStatus sId iId st p).sections,
        (sec.id = sId → sec.items ≠ [] → claimedSectionInvariant sec)
        ∧ (sec.id ≠ sId → sec ∈ p.sections))
    ∧ (∀ (p : InspectionProfile) (sId iId : String),
        (∀ sec ∈ p.sections, claimedSectionInvariant sec) →
        ∀ (opt txt d img : String) (hid : Bool) (k : Nat) (tgt : CameraTarget),
          (∀ sec ∈ (updateItemOption sId iId opt p).sections, claimedSectionInvariant sec)
          ∧ (∀ sec ∈ (updateItemNote sId iId txt p).sections, claimedSectionInvariant sec)
          ∧ (∀ sec ∈ (toggleItemVisibility sId iId hid p).sections,
              claimedSectionInvariant sec)
          ∧ (∀ sec ∈ (deletePhoto sId iId k p).sections, claimedSectionInvariant sec)
          ∧ (∀ sec ∈ (processImageAnalysisUpdate sId iId d p).sections,
              claimedSectionInvariant sec)
          ∧ (∀ sec ∈ (handleCapturePhoto tgt img p).sections, claimedSectionInvariant sec)
          ∧ (∀ sec ∈ (showAllHiddenInSection sId p).sections, claimedSectionInvariant sec))
    ∧ (∀ (p : InspectionProfile) (sId : String)
        (newItems : List InspectionChecklistItem),
        (∀ sec ∈ p.sections, claimedSectionInvariant sec) →
        (∀ i ∈ newItems, i.status = ItemStatus.untouched) →
        (∀ sec ∈ p.sections, sec.id = sId → sec.status ≠ SectionStatus.completed) →
        ∀ sec ∈ (handleAddItem sId newItems p).sections, claimedSectionInvariant sec)
    ∧ (∀ (p : InspectionProfile) (newSec : InspectionSection),
        (∀ sec ∈ p.sections, claimedSectionInvariant sec) →
        newSec.status = SectionStatus.pending → newSec.items ≠ [] →
        (∀ i ∈ newSec.items, i.status = ItemStatus.untouched) →
        ∀ sec ∈ (handleAddSection newSec p).sections, claimedSectionInvariant sec) := by
  refine ⟨?_, ?_, ?_, ?_⟩
  · intro p sId iId st sec hsec
    simp only [updateItemStatus] at hsec
    obtain ⟨orig, horig, rfl⟩ := List.mem_map.mp hsec
    by_cases hsid : orig.id = sId
    · rw [if_neg (fun hne => hne hsid)]
      constructor
      · intro _ hne2
        exact ⟨(sectionStatusOf_spec _ hne2).1, (sectionStatusOf_spec _ hne2).2⟩
      · intro hne
        exact absurd hsid hne
    · rw [if_pos hsid]
      exact ⟨fun heq _ => absurd heq hsid, fun _ => horig⟩
  · intro p sId iId hinv opt txt d img hid k tgt
    obtain ⟨tsId, tiId⟩ := tgt
    refine ⟨?_, ?_, ?_, ?_, ?_, ?_, ?_⟩ <;> intro sec hsec
    · simp only [updateItemOption] at hsec
      obtain ⟨orig, horig, rfl⟩ := List.mem_map.mp hsec
      by_cases hsid : orig.id = sId
      · rw [if_neg (fun hne => hne hsid)]
        exact claimedInv_map_items (fun i => by split <;> rfl) (hinv orig horig)
      · rw [if_pos hsid]
        exact hinv orig horig
    · simp only [updateItemNote] at hsec
      obtain ⟨orig, horig, rfl⟩ := List.mem_map.mp hsec
      by_cases hsid : orig.id = sId
      · rw [if_neg (fun hne => hne hsid)]
        exact claimedInv_map_items (fun i => by split <;> rfl) (hinv orig horig)
      · rw [if_pos hsid]
        exact hinv orig horig
    · simp only [toggleItemVisibility] at hsec
      obtain ⟨orig, horig, rfl⟩ := List.mem_map.mp hsec
      by_cases hsid : orig.id = sId
      · rw [if_neg (fun hne => hne hsid)]
        exact claimedInv_map_items (fun i => by split <;> rfl) (hinv orig horig)
      · rw [if_pos hsid]
        exact hinv orig horig
    · simp only [deletePhoto] at hsec
      obtain ⟨orig, horig, rfl⟩ := List.mem_map.mp hsec
      by_cases hsid : orig.id = sId
      · rw [if_neg (fun hne => hne hsid)]
        exact claimedInv_map_items (fun i => by split <;> rfl) (hinv orig horig)
      · rw [if_pos hsid]
        exact hinv orig horig
    · simp only [processImageAnalysisUpdate] at hsec
      obtain ⟨orig, horig, rfl⟩ := List.mem_map.mp hsec
      by_cases hsid : orig.id = sId
      · rw [if_neg (fun hne => hne hsid)]
        exact claimedInv_map_items (fun i => by split <;> rfl) (hinv orig horig)
      · rw [if_pos hsid]
        exact hinv orig horig
    · simp only [handleCapturePhoto] at hsec
      obtain ⟨orig, horig, rfl⟩ := List.mem_map.mp hsec
      by_cases hsid : orig.id = tsId
      · rw [if_neg (fun hne => hne hsid)]
        cases tiId with
        | some itemId =>
          exact claimedInv_map_items (fun i => by split <;> rfl) (hinv orig horig)
        | none => exact hinv orig horig
      · rw [if_pos hsid]
        exact hinv orig horig
    · simp only [showAllHiddenInSection] at hsec
      obtain ⟨orig, horig, rfl⟩ := List.mem_map.mp hsec
      by_cases hsid : orig.id = sId
      · rw [if_neg (fun hne => hne hsid)]
        exact claimedInv_map_items (fun i => rfl) (hinv orig horig)
      · rw [if_pos hsid]
        exact hinv orig horig
  · intro p sId newItems hinv hnew hnc sec hsec
    cases hfind : p.sections.find? (fun s => s.id = sId) with
    | none =>
      simp only [handleAddItem, hfind] at hsec
      exact hinv sec hsec
    | some s =>
      simp only [handleAddItem, hfind] at hsec
      by_cases hlen : newItems.length > 0
      · rw [if_pos hlen] at hsec
        obtain ⟨orig, horig, rfl⟩ := List.mem_map.mp hsec
        by_cases hsid : orig.id = sId
        · rw [if_neg (fun hne => hne hsid)]
          have horiginv := hinv orig horig
          have hstat := hnc orig horig hsid
          have hnenew : newItems ≠ [] := by
            intro hn
            rw [hn] at hlen
            simp at hlen
          obtain ⟨j, hj⟩ := List.exists_mem_of_ne_nil newItems hnenew
          simp only [claimedSectionInvariant] at horiginv ⊢
          cases hcs : orig.status with
          | completed => exact absurd hcs hstat
          | pending =>
            rw [hcs] at horiginv
            have hallunt : ∀ i ∈ orig.items, i.status = ItemStatus.untouched :=
              horiginv.2.mp rfl
            constructor
            · constructor
              · intro hcon
                exact absurd hcon (by simp)
              · intro hall
                exact absurd (hnew j hj) (hall j (List.mem_append_right _ hj))
            · constructor
              · intro _ i hi
                rcases List.mem_append.mp hi with h | h
                · exact hallunt i h
                · exact hnew i h
              · intro _
                rfl
          | inProgress =>
            rw [hcs] at horiginv
            have hnall1 : ¬ (∀ i ∈ orig.items, i.status ≠ ItemStatus.untouched) := by
              intro hc
              exact absurd (horiginv.1.mpr hc) (by simp)
            have hnall2 : ¬ (∀ i ∈ orig.items, i.status = ItemStatus.untouched) := by
              intro hc
              exact absurd (horiginv.2.mpr hc) (by simp)
            push_neg at hnall1 hnall2
            obtain ⟨w1, hw1, hw1s⟩ := hnall1
            obtain ⟨w2, hw2, hw2s⟩ := hnall2
            constructor
            · constructor
              · intro hcon
                exact absurd hcon (by simp)
              · intro hall
                exact absurd hw1s (by simpa using hall w1 (List.mem_append_left _ hw1))
            · constructor
              · intro hcon
                exact absurd hcon (by simp)
              · intro hall
                exact absurd (hall w2 (List.mem_append_left _ hw2)) hw2s
        · rw [if_pos hsid]
          exact hinv orig horig
      · rw [if_neg hlen] at hsec
        exact hinv sec hsec
  · intro p newSec hinv hpend hne hnewitems sec hsec
    simp only [handleAddSection] at hsec
    rcases List.mem_append.mp hsec with h | h
    · exact hinv sec h
    · have hsec2 : sec = newSec := by simpa using h
      subst hsec2
      obtain ⟨j, hj⟩ := List.exists_mem_of_ne_nil _ hne
      refine ⟨?_, ?_⟩
      · rw [hpend]
        constructor
        · intro hcon
          exact absurd hcon (by simp)
        · intro hall
          exact absurd (hnewitems j hj) (hall j hj)
      · rw [hpend]
        exact ⟨fun _ => hnewitems, fun _ => rfl⟩

/-- Counterexample to C1 as stated: starting from a freshly generated
one-section document (pending, one untouched item) — a reachable state —
marking the item `pass` makes the section `completed`, and then appending
a freshly generated `untouched` item leaves the stored status `completed`
even though not every item is non-`untouched`. -/
theorem sectionStatus_invariant_cex :
    ∃ sec ∈ (handleAddItem "s1" [{ sampleItem with id := "i2" }]
        (updateItemStatus "s1" "i1" ItemStatus.pass
          { sampleProfile with sections := [sampleSection] })).sections,
      sec.status = SectionStatus.completed ∧
      ¬ (∀ i ∈ sec.items, i.status ≠ ItemStatus.untouched) := by
  decide

/-- Witness for `sectionStatus_invariant_ops`: the section produced by a
concrete `setItemStatus` call satisfies the claimed invariant. -/
theorem sectionStatus_invariant_ops_witness :
    claimedSectionInvariant
      { sampleSection with
        items := [{ sampleItem with status := ItemStatus.pass }]
        status := SectionStatus.completed } := by
  have h := (sectionStatus_invariant_ops.1
    { sampleProfile with sections := [sampleSection] } "s1" "i1" ItemStatus.pass
    { sampleSection with
      items := [{ sampleItem with status := ItemStatus.pass }]
      status := SectionStatus.completed }
    (by decide)).1 rfl (by decide)
  exact h

end Inspection
